import Mathlib

/-!
Verification of the finn-bruktbil discovery/scheduling subsystem.

Shallow embedding of `src/finnbruktbil/db.py` and
`src/finnbruktbil/cli/fetch_ids.py`.  The SQLite tables are modelled as
Lean lists of row structures; timestamps are modelled as `Nat` (seconds
since the Unix epoch — the code stores ISO-8601 strings produced by
`datetime.utcnow().isoformat()`, whose lexicographic order coincides with
chronological order for such timestamps, and `COALESCE(last_scraped,
'1970-01-01T00:00:00')` corresponds to `Option.getD · 0`).
-/

namespace FinnBruktbil

/-- The `scrape_status` column of `ad_ids`.  The code only ever writes the
three string literals `'pending'`, `'scraped'`, `'missing'`
(schema default `'pending'`; `upsert_ad_ids`, `save_ad_detail`,
`mark_missing`). -/
inductive Status where
  | pending
  | scraped
  | missing
deriving DecidableEq, Repr

/-- One row of the `ad_ids` table (db.py, `initialize_schema`). -/
structure IdRow where
  ad_id : String
  source_url : String
  fetched_by : String
  first_seen : Nat
  last_seen : Nat
  last_scraped : Option Nat
  scrape_status : Status
deriving DecidableEq, Repr

/-- The `ON CONFLICT(ad_id) DO UPDATE` clause of `upsert_ad_ids`
(db.py lines 116-123): refresh `source_url`, `fetched_by`, `last_seen`;
set `scrape_status` to `'pending'` only when it was `'missing'`;
`first_seen` and `last_scraped` are not in the SET list. -/
def upsertConflictUpdate (src fby : String) (now : Nat) (r : IdRow) : IdRow :=
  { r with
    source_url := src
    fetched_by := fby
    last_seen := now
    scrape_status :=
      if r.scrape_status = Status.missing then Status.pending
      else r.scrape_status }

/-- The row inserted by `upsert_ad_ids` when `ad_id` is absent:
`(ad_id, source_url, fetched_by, first_seen, last_seen)` are supplied,
`last_scraped` defaults to NULL and `scrape_status` to `'pending'`
(schema defaults, db.py lines 40-48). -/
def insertedIdRow (id src fby : String) (now : Nat) : IdRow :=
  { ad_id := id
    source_url := src
    fetched_by := fby
    first_seen := now
    last_seen := now
    last_scraped := none
    scrape_status := Status.pending }

/-- Effect of one `INSERT ... ON CONFLICT(ad_id) DO UPDATE` statement on
the `ad_ids` table: rows whose key matches are updated in place, otherwise
a fresh row is appended. -/
def upsertOne (src fby : String) (now : Nat) (rows : List IdRow)
    (id : String) : List IdRow :=
  if rows.any (fun r => r.ad_id = id) then
    rows.map (fun r =>
      if r.ad_id = id then upsertConflictUpdate src fby now r else r)
  else
    rows ++ [insertedIdRow id src fby now]

/-- `upsert_ad_ids` (db.py lines 104-126): `executemany` runs the upsert
statement once per id of the batch, in order, all with the same `now`. -/
def upsert_ad_ids (rows : List IdRow) (source_url : String)
    (ad_ids : List String) (fetched_by : String) (now : Nat) : List IdRow :=
  ad_ids.foldl (upsertOne source_url fetched_by now) rows

/-- The `AdRecord` dataclass (db.py lines 129-171).  `fetched_at` is a
timestamp; `specs` is the raw `Dict[str, str]` overflow map, modelled as an
association list.  Field names with Norwegian letters are transliterated
(aa for the a-ring, oe for the o-slash) since Lean identifiers are ASCII
here. -/
structure AdRecord where
  ad_id : String
  fetched_at : Nat
  title : Option String
  subtitle : Option String
  totalpris : Option Int
  omregistrering : Option Int
  pris_eks_omreg : Option Int
  aarsavgift_info : Option String
  merke : Option String
  modell : Option String
  modellaar : Option Int
  karosseri : Option String
  drivstoff : Option String
  effekt_hk : Option Int
  kilometerstand_km : Option Int
  batterikapasitet_kWh : Option Int
  rekkevidde_km : Option Int
  girkasse : Option String
  maksimal_tilhengervekt_kg : Option Int
  hjuldrift : Option String
  vekt_kg : Option Int
  seter : Option Int
  doerer : Option Int
  bagasjerom_volum_l : Option Int
  farge : Option String
  fargebeskrivelse : Option String
  interioerfarge : Option String
  bilen_staar_i : Option String
  neste_eu_kontroll : Option String
  avgiftsklasse : Option String
  registreringsnummer : Option String
  chassisnummer : Option String
  foerstegangsregistrert : Option String
  eiere : Option Int
  garanti : Option String
  salgsform : Option String
  specs : List (String × String)
deriving DecidableEq, Repr

/-- One row of the `ad_details` table (db.py lines 50-89).  The
`raw_spec_json` column holds `json.dumps(record.specs)`; JSON serialization
of a string map is injective, so the column is modelled by the map itself. -/
structure DetailRow where
  ad_id : String
  fetched_at : Nat
  title : Option String
  subtitle : Option String
  totalpris : Option Int
  omregistrering : Option Int
  pris_eks_omreg : Option Int
  aarsavgift_info : Option String
  merke : Option String
  modell : Option String
  modellaar : Option Int
  karosseri : Option String
  drivstoff : Option String
  effekt_hk : Option Int
  kilometerstand_km : Option Int
  batterikapasitet_kWh : Option Int
  rekkevidde_km : Option Int
  girkasse : Option String
  maksimal_tilhengervekt_kg : Option Int
  hjuldrift : Option String
  vekt_kg : Option Int
  seter : Option Int
  doerer : Option Int
  bagasjerom_volum_l : Option Int
  farge : Option String
  fargebeskrivelse : Option String
  interioerfarge : Option String
  bilen_staar_i : Option String
  neste_eu_kontroll : Option String
  avgiftsklasse : Option String
  registreringsnummer : Option String
  chassisnummer : Option String
  foerstegangsregistrert : Option String
  eiere : Option Int
  garanti : Option String
  salgsform : Option String
  raw_spec_json : List (String × String)
deriving DecidableEq, Repr

/-- The VALUES tuple of the `save_ad_detail` INSERT (db.py lines 227-265):
every column is taken from the corresponding `AdRecord` field;
`raw_spec_json` is the serialized `specs` map. -/
def toDetailRow (r : AdRecord) : DetailRow :=
  { ad_id := r.ad_id
    fetched_at := r.fetched_at
    title := r.title
    subtitle := r.subtitle
    totalpris := r.totalpris
    omregistrering := r.omregistrering
    pris_eks_omreg := r.pris_eks_omreg
    aarsavgift_info := r.aarsavgift_info
    merke := r.merke
    modell := r.modell
    modellaar := r.modellaar
    karosseri := r.karosseri
    drivstoff := r.drivstoff
    effekt_hk := r.effekt_hk
    kilometerstand_km := r.kilometerstand_km
    batterikapasitet_kWh := r.batterikapasitet_kWh
    rekkevidde_km := r.rekkevidde_km
    girkasse := r.girkasse
    maksimal_tilhengervekt_kg := r.maksimal_tilhengervekt_kg
    hjuldrift := r.hjuldrift
    vekt_kg := r.vekt_kg
    seter := r.seter
    doerer := r.doerer
    bagasjerom_volum_l := r.bagasjerom_volum_l
    farge := r.farge
    fargebeskrivelse := r.fargebeskrivelse
    interioerfarge := r.interioerfarge
    bilen_staar_i := r.bilen_staar_i
    neste_eu_kontroll := r.neste_eu_kontroll
    avgiftsklasse := r.avgiftsklasse
    registreringsnummer := r.registreringsnummer
    chassisnummer := r.chassisnummer
    foerstegangsregistrert := r.foerstegangsregistrert
    eiere := r.eiere
    garanti := r.garanti
    salgsform := r.salgsform
    raw_spec_json := r.specs }

/-- The `ON CONFLICT(ad_id) DO UPDATE SET` clause of `save_ad_detail`
(db.py lines 189-225): every column except the key is set to the excluded
(incoming) row's value. -/
def detailConflictUpdate (old exc : DetailRow) : DetailRow :=
  { old with
    fetched_at := exc.fetched_at
    title := exc.title
    subtitle := exc.subtitle
    totalpris := exc.totalpris
    omregistrering := exc.omregistrering
    pris_eks_omreg := exc.pris_eks_omreg
    aarsavgift_info := exc.aarsavgift_info
    merke := exc.merke
    modell := exc.modell
    modellaar := exc.modellaar
    karosseri := exc.karosseri
    drivstoff := exc.drivstoff
    effekt_hk := exc.effekt_hk
    kilometerstand_km := exc.kilometerstand_km
    batterikapasitet_kWh := exc.batterikapasitet_kWh
    rekkevidde_km := exc.rekkevidde_km
    girkasse := exc.girkasse
    maksimal_tilhengervekt_kg := exc.maksimal_tilhengervekt_kg
    hjuldrift := exc.hjuldrift
    vekt_kg := exc.vekt_kg
    seter := exc.seter
    doerer := exc.doerer
    bagasjerom_volum_l := exc.bagasjerom_volum_l
    farge := exc.farge
    fargebeskrivelse := exc.fargebeskrivelse
    interioerfarge := exc.interioerfarge
    bilen_staar_i := exc.bilen_staar_i
    neste_eu_kontroll := exc.neste_eu_kontroll
    avgiftsklasse := exc.avgiftsklasse
    registreringsnummer := exc.registreringsnummer
    chassisnummer := exc.chassisnummer
    foerstegangsregistrert := exc.foerstegangsregistrert
    eiere := exc.eiere
    garanti := exc.garanti
    salgsform := exc.salgsform
    raw_spec_json := exc.raw_spec_json }

/-- The database state: the two tables of `initialize_schema`. -/
structure DB where
  ad_ids : List IdRow
  ad_details : List DetailRow
deriving DecidableEq, Repr

/-- The row of `ad_ids` holding a given id (the primary key makes it
unique; `find?` returns the first match). -/
def rowOf (rows : List IdRow) (id : String) : Option IdRow :=
  rows.find? (fun r => r.ad_id = id)

/-- `scrape_status` of a given id. -/
def statusOf (rows : List IdRow) (id : String) : Option Status :=
  (rowOf rows id).map IdRow.scrape_status

/-- The detail row stored for a given id. -/
def detailOf (rows : List DetailRow) (id : String) : Option DetailRow :=
  rows.find? (fun r => r.ad_id = id)

/-- Effect of the `INSERT ... ON CONFLICT(ad_id) DO UPDATE` of
`save_ad_detail` on the `ad_details` table. -/
def upsertDetail (rows : List DetailRow) (r : DetailRow) : List DetailRow :=
  if rows.any (fun old => old.ad_id = r.ad_id) then
    rows.map (fun old =>
      if old.ad_id = r.ad_id then detailConflictUpdate old r else old)
  else
    rows ++ [r]

/-- First statement of `save_ad_detail` (db.py lines 175-266): the detail
upsert.  `get_connection` issues `PRAGMA foreign_keys = ON` (db.py line 23)
and `ad_details.ad_id` REFERENCES `ad_ids(ad_id)` (db.py line 88), so
inserting a detail whose id has no identity row raises
`sqlite3.IntegrityError`; that fallible outcome is the `Except.error`
branch. -/
def saveDetailStep (db : DB) (r : AdRecord) : Except String DB :=
  if db.ad_ids.any (fun idr => idr.ad_id = r.ad_id) then
    Except.ok { db with ad_details := upsertDetail db.ad_details (toDetailRow r) }
  else
    Except.error "FOREIGN KEY constraint failed"

/-- Second statement of `save_ad_detail` (db.py lines 267-274):
`UPDATE ad_ids SET last_scraped = fetched_at, scrape_status = 'scraped'
WHERE ad_id = record.ad_id`. -/
def updateIdentityStep (db : DB) (r : AdRecord) : DB :=
  { db with ad_ids := db.ad_ids.map (fun idr =>
      if idr.ad_id = r.ad_id then
        { idr with last_scraped := some r.fetched_at
                   scrape_status := Status.scraped }
      else idr) }

/-- `save_ad_detail` (db.py lines 174-274): the detail upsert followed by
the identity update; a constraint violation in the first statement aborts
before the second runs. -/
def save_ad_detail (db : DB) (r : AdRecord) : Except String DB :=
  (saveDetailStep db r).map (fun db1 => updateIdentityStep db1 r)

/-- `mark_missing` (db.py lines 277-285): `UPDATE ad_ids SET
scrape_status = 'missing', last_scraped = now WHERE ad_id = ?`.  A SQL
UPDATE matching zero rows succeeds without error, so the function is
total. -/
def mark_missing (now : Nat) (db : DB) (id : String) : DB :=
  { db with ad_ids := db.ad_ids.map (fun idr =>
      if idr.ad_id = id then
        { idr with scrape_status := Status.missing, last_scraped := some now }
      else idr) }

/-- `db_session` (db.py lines 27-34): open a connection, run the body,
`conn.commit()` on normal completion, `conn.close()` in all cases.  A body
that raises skips the commit, and closing a sqlite connection with an
uncommitted transaction rolls it back, so the persisted state on error is
the state at entry.  Returns the persisted database and the escaping
error, if any. -/
def runSession (db : DB) (body : DB → Except String DB) :
    DB × Option String :=
  match body db with
  | Except.ok db1 => (db1, none)
  | Except.error e => (db, some e)

/-- The WHERE predicate of `fetch_ids_for_scraping` (db.py lines 294-302):
`scrape_status IN ('pending', 'scraped')`, and — with no `stale_hours` —
`last_scraped IS NULL`; with `stale_hours = h` — `last_scraped IS NULL OR
last_scraped <= now - h` (the threshold `datetime.utcnow() -
timedelta(hours=stale_hours)`, expressed here in the same time unit as the
stored timestamps). -/
def scrapeCandidatePred (now : Nat) (staleWindow : Option Nat)
    (r : IdRow) : Bool :=
  (r.scrape_status = Status.pending || r.scrape_status = Status.scraped) &&
  (match staleWindow with
   | none => r.last_scraped = none
   | some w => r.last_scraped = none ||
       (match r.last_scraped with
        | none => true
        | some t => t ≤ now - w))

/-- Sort key of the chronological ordering (db.py line 304):
`COALESCE(last_scraped, '1970-01-01T00:00:00')`, i.e. NULL is replaced by
the epoch, the least timestamp the code can store. -/
def scrapeSortKey (r : IdRow) : Nat :=
  r.last_scraped.getD 0

/-- `fetch_ids_for_scraping` (db.py lines 288-315): filter by the WHERE
predicate, order the qualifying rows — `ORDER BY COALESCE(last_scraped,
epoch) ASC` when `random_order = False`, `ORDER BY RANDOM()` when
`random_order = True` — then `LIMIT limit` and project `ad_id`.  The SQL
engine's random source is external nondeterminism: it is modelled by the
`shuffle` argument, an arbitrary reordering of the qualifying rows
(theorems about the random branch assume `shuffle l` is a permutation of
`l`, which is what `ORDER BY RANDOM()` produces). -/
def fetch_ids_for_scraping (db : DB) (limit : Nat) (staleWindow : Option Nat)
    (now : Nat) (random_order : Bool)
    (shuffle : List IdRow → List IdRow) : List String :=
  ((if random_order then
      shuffle (db.ad_ids.filter (scrapeCandidatePred now staleWindow))
    else
      (db.ad_ids.filter (scrapeCandidatePred now staleWindow)).mergeSort
        (fun a b => scrapeSortKey a ≤ scrapeSortKey b)).take limit).map
    IdRow.ad_id

/-!
Page Crawler (`src/finnbruktbil/cli/fetch_ids.py`).  The browser driver is
an external collaborator: a page is modelled by the list of candidate
strings its anchor elements yield (the `id` attribute, or the last `href`
path segment when the attribute is empty — fetch_ids.py lines 33-37), and
`none` models `wait_for_elements` timing out on that page.
-/

/-- `candidate.strip()` (fetch_ids.py line 38): remove leading and
trailing whitespace.  Defined over the character list so that concrete
instances evaluate by kernel reduction. -/
def pyStrip (s : String) : String :=
  ⟨((s.data.dropWhile Char.isWhitespace).reverse.dropWhile
      Char.isWhitespace).reverse⟩

/-- `extract_ids_from_page` (fetch_ids.py lines 29-41): strip each
candidate, skip empty ones, and append only candidates not already
collected on this page. -/
def extract_ids_from_page (candidates : List String) : List String :=
  candidates.foldl
    (fun ids c =>
      let c := pyStrip c
      if c ≠ "" && !(ids.contains c) then ids ++ [c] else ids)
    []

/-- The inner `for ad_id in page_ids` loop of `collect_ad_ids`
(fetch_ids.py lines 54-56): append each page id not already collected. -/
def appendNew (collected : List String) (pageIds : List String) :
    List String :=
  pageIds.foldl
    (fun acc a => if acc.contains a then acc else acc ++ [a]) collected

/-- First-seen deduplication: each string kept once, at the position of its
first occurrence.  Specification-side characterization used to state the
crawler theorems. -/
def firstSeen (l : List String) : List String :=
  appendNew [] l

/-- The page loop of `collect_ad_ids` (fetch_ids.py lines 46-60): stop when
the page fails to render (`none`), when it yields no ids, or when the
running result has reached `limit` (truncating to exactly `limit`);
otherwise merge the page's ids and continue. -/
def collectGo (limit : Nat) :
    List (Option (List String)) → List String → List String
  | [], collected => collected
  | none :: _, collected => collected
  | some elems :: rest, collected =>
    let pageIds := extract_ids_from_page elems
    if pageIds.isEmpty then collected
    else
      let collected1 := appendNew collected pageIds
      if limit ≤ collected1.length then collected1.take limit
      else collectGo limit rest collected1

/-- `collect_ad_ids` (fetch_ids.py lines 44-60).  `pages` holds the
extraction outcome of pages `1..max_pages` in order. -/
def collect_ad_ids (pages : List (Option (List String))) (limit : Nat) :
    List String :=
  collectGo limit pages []

/-! ### Helper lemmas about keyed lookup -/

lemma find?_map_keyed {α : Type} (key : α → String) (f : α → α)
    (hf : ∀ r, key (f r) = key r) (id : String) (rows : List α) :
    (rows.map f).find? (fun r => key r = id)
      = (rows.find? (fun r => key r = id)).map f := by
  induction rows with
  | nil => rfl
  | cons a l ih =>
    simp only [List.map_cons, List.find?_cons]
    by_cases h : key a = id
    · simp [hf a, h]
    · simp [hf a, h, ih]

lemma rowOf_map_keyed (rows : List IdRow) (f : IdRow → IdRow)
    (hf : ∀ r, (f r).ad_id = r.ad_id) (id : String) :
    rowOf (rows.map f) id = (rowOf rows id).map f :=
  find?_map_keyed IdRow.ad_id f hf id rows

lemma detailOf_map_keyed (rows : List DetailRow) (f : DetailRow → DetailRow)
    (hf : ∀ r, (f r).ad_id = r.ad_id) (id : String) :
    detailOf (rows.map f) id = (detailOf rows id).map f :=
  find?_map_keyed DetailRow.ad_id f hf id rows

lemma rowOf_mem_ad_id {rows : List IdRow} {id : String} {r : IdRow}
    (h : rowOf rows id = some r) : r.ad_id = id := by
  have := List.find?_some h
  simpa using this

lemma detailOf_mem_ad_id {rows : List DetailRow} {id : String} {r : DetailRow}
    (h : detailOf rows id = some r) : r.ad_id = id := by
  have := List.find?_some h
  simpa using this

lemma any_of_rowOf_some {rows : List IdRow} {id : String} {r : IdRow}
    (h : rowOf rows id = some r) :
    rows.any (fun x => x.ad_id = id) = true := by
  have hm : r ∈ rows := List.mem_of_find?_eq_some h
  have hr : r.ad_id = id := rowOf_mem_ad_id h
  simp only [List.any_eq_true]
  exact ⟨r, hm, by simp [hr]⟩

lemma any_of_detailOf_some {rows : List DetailRow} {id : String}
    {r : DetailRow} (h : detailOf rows id = some r) :
    rows.any (fun x => x.ad_id = id) = true := by
  have hm : r ∈ rows := List.mem_of_find?_eq_some h
  have hr : r.ad_id = id := detailOf_mem_ad_id h
  simp only [List.any_eq_true]
  exact ⟨r, hm, by simp [hr]⟩

/-! ### Behaviour of the discovery upsert -/

lemma upsertConflictUpdate_ad_id (src fby : String) (now : Nat) (r : IdRow) :
    (upsertConflictUpdate src fby now r).ad_id = r.ad_id := rfl

lemma rowOf_upsertOne (src fby : String) (now : Nat) (rows : List IdRow)
    (id2 id : String) :
    rowOf (upsertOne src fby now rows id2) id =
      if id = id2 then
        match rowOf rows id2 with
        | some r => some (upsertConflictUpdate src fby now r)
        | none => some (insertedIdRow id2 src fby now)
      else rowOf rows id := by
  unfold upsertOne
  by_cases hany : rows.any (fun r => r.ad_id = id2) = true
  · rw [if_pos hany]
    have hsome : (rowOf rows id2).isSome := by
      unfold rowOf
      rw [List.find?_isSome]
      simpa [List.any_eq_true] using hany
    obtain ⟨r2, hr2⟩ := Option.isSome_iff_exists.mp hsome
    have hr2id : r2.ad_id = id2 := rowOf_mem_ad_id hr2
    rw [rowOf_map_keyed _ _ (fun r => by
      by_cases h : r.ad_id = id2 <;>
        simp [h, upsertConflictUpdate_ad_id])]
    by_cases hid : id = id2
    · subst hid
      rw [hr2]
      simp [hr2, hr2id]
    · rw [if_neg hid]
      cases hfind : rowOf rows id with
      | none => simp
      | some r =>
        have hr : r.ad_id = id := rowOf_mem_ad_id hfind
        simp [hfind, hr, hid]
  · rw [if_neg hany]
    have hnone : rowOf rows id2 = none := by
      unfold rowOf
      rw [List.find?_eq_none]
      intro x hx hpx
      exact hany (List.any_eq_true.mpr ⟨x, hx, hpx⟩)
    unfold rowOf at hnone ⊢
    rw [List.find?_append]
    by_cases hid : id = id2
    · subst hid
      simp [hnone, insertedIdRow, List.find?]
    · cases hfind : rows.find? (fun r => decide (r.ad_id = id)) with
      | none => simp [hfind, hnone, hid, insertedIdRow, Ne.symm hid, List.find?]
      | some r => simp [hfind, hnone, hid]

lemma rowOf_upsert_not_mem (src fby : String) (now : Nat)
    (ids : List String) (id : String) (rows : List IdRow) (h : id ∉ ids) :
    rowOf (upsert_ad_ids rows src ids fby now) id = rowOf rows id := by
  induction ids generalizing rows with
  | nil => rfl
  | cons a as ih =>
    have hna : id ≠ a := by intro he; exact h (by simp [he])
    have has : id ∉ as := by intro hm; exact h (by simp [hm])
    show rowOf (upsert_ad_ids (upsertOne src fby now rows a) src as fby now) id
      = _
    rw [ih _ has, rowOf_upsertOne, if_neg hna]

lemma upsertConflictUpdate_idem (src fby : String) (now : Nat) (r : IdRow) :
    upsertConflictUpdate src fby now (upsertConflictUpdate src fby now r)
      = upsertConflictUpdate src fby now r := by
  unfold upsertConflictUpdate
  by_cases h : r.scrape_status = Status.missing <;> simp [h]

lemma rowOf_upsert_mem (src fby : String) (now : Nat)
    (ids : List String) (id : String) (rows : List IdRow) (r : IdRow)
    (hr : rowOf rows id = some r) (hmem : id ∈ ids) :
    rowOf (upsert_ad_ids rows src ids fby now) id
      = some (upsertConflictUpdate src fby now r) := by
  induction ids generalizing rows r with
  | nil => cases hmem
  | cons a as ih =>
    show rowOf (upsert_ad_ids (upsertOne src fby now rows a) src as fby now)
      id = _
    by_cases hia : id = a
    · subst hia
      have h1 : rowOf (upsertOne src fby now rows id) id
          = some (upsertConflictUpdate src fby now r) := by
        rw [rowOf_upsertOne]
        simp [hr]
      by_cases hmas : id ∈ as
      · rw [ih _ _ h1 hmas, upsertConflictUpdate_idem]
      · rw [rowOf_upsert_not_mem _ _ _ _ _ _ hmas, h1]
    · have hmas : id ∈ as := by
        rcases List.mem_cons.mp hmem with h | h
        · exact absurd h hia
        · exact h
      have h1 : rowOf (upsertOne src fby now rows a) id = some r := by
        rw [rowOf_upsertOne, if_neg hia]
        exact hr
      exact ih _ _ h1 hmas

/-- C1: an identity record already in the store whose id occurs in the
rediscovered batch has, after `upsert_ad_ids`, status `pending` exactly
when its old status was `missing`, and keeps its old status (`pending`
stays `pending`, `scraped` stays `scraped`) otherwise. -/
theorem upsert_revives_only_missing (rows : List IdRow) (url fby : String)
    (now : Nat) (ids : List String) (id : String) (s : Status)
    (hs : statusOf rows id = some s) (hmem : id ∈ ids) :
    statusOf (upsert_ad_ids rows url ids fby now) id =
      some (if s = Status.missing then Status.pending else s) := by
  obtain ⟨r, hr, hrs⟩ : ∃ r, rowOf rows id = some r ∧ r.scrape_status = s := by
    unfold statusOf at hs
    cases hfind : rowOf rows id with
    | none => rw [hfind] at hs; cases hs
    | some r =>
      rw [hfind] at hs
      exact ⟨r, rfl, by simpa using hs⟩
  unfold statusOf
  rw [rowOf_upsert_mem url fby now ids id rows r hr hmem]
  simp [upsertConflictUpdate, hrs]

/-- Witness for C1: a concrete `missing` record rediscovered in a batch
containing its id becomes `pending`. -/
theorem upsert_revives_only_missing_witness :
    statusOf
      (upsert_ad_ids
        [{ ad_id := "a", source_url := "u", fetched_by := "c",
           first_seen := 0, last_seen := 0, last_scraped := none,
           scrape_status := Status.missing }] "u2" ["a"] "c2" 5) "a" =
      some (if Status.missing = Status.missing then Status.pending
            else Status.missing) :=
  upsert_revives_only_missing _ "u2" "c2" 5 ["a"] "a" Status.missing
    (by decide) (by decide)

/-- C9: a rediscovered identity record always gets the new `source_url`,
`fetched_by` and `last_seen`, while `first_seen` and `last_scraped` are
unchanged. -/
theorem upsert_refreshes_crawl_fields (rows : List IdRow) (url fby : String)
    (now : Nat) (ids : List String) (id : String) (r : IdRow)
    (hr : rowOf rows id = some r) (hmem : id ∈ ids) :
    ∃ r', rowOf (upsert_ad_ids rows url ids fby now) id = some r' ∧
      r'.source_url = url ∧ r'.fetched_by = fby ∧ r'.last_seen = now ∧
      r'.first_seen = r.first_seen ∧ r'.last_scraped = r.last_scraped :=
  ⟨_, rowOf_upsert_mem url fby now ids id rows r hr hmem,
    rfl, rfl, rfl, rfl, rfl⟩

/-- A concrete already-fetched identity row used by witnesses. -/
def exampleScrapedRow : IdRow :=
  { ad_id := "a", source_url := "u", fetched_by := "c",
    first_seen := 3, last_seen := 4, last_scraped := some 2,
    scrape_status := Status.scraped }

/-- Witness for C9 at a concrete store and batch. -/
theorem upsert_refreshes_crawl_fields_witness :
    ∃ r', rowOf (upsert_ad_ids [exampleScrapedRow] "u2" ["a"] "c2" 9) "a"
        = some r' ∧
      r'.source_url = "u2" ∧ r'.fetched_by = "c2" ∧ r'.last_seen = 9 ∧
      r'.first_seen = exampleScrapedRow.first_seen ∧
      r'.last_scraped = exampleScrapedRow.last_scraped :=
  upsert_refreshes_crawl_fields _ "u2" "c2" 9 ["a"] "a" _
    (by decide) (by decide)

/-! ### Detail Ingester -/

lemma detailConflictUpdate_ad_id (old exc : DetailRow) :
    (detailConflictUpdate old exc).ad_id = old.ad_id := rfl

lemma detailConflictUpdate_eq {old exc : DetailRow}
    (h : old.ad_id = exc.ad_id) : detailConflictUpdate old exc = exc := by
  cases old
  cases exc
  simp_all [detailConflictUpdate]

/-- A record with a couple of populated fields, parameterized so two calls
produce distinct records; used by concrete witnesses. -/
def exampleRecord (n : Nat) : AdRecord :=
  { ad_id := "a", fetched_at := n, title := some (toString n),
    subtitle := none, totalpris := some 100, omregistrering := none,
    pris_eks_omreg := none, aarsavgift_info := none, merke := none,
    modell := none, modellaar := none, karosseri := none,
    drivstoff := none, effekt_hk := none, kilometerstand_km := none,
    batterikapasitet_kWh := none, rekkevidde_km := none, girkasse := none,
    maksimal_tilhengervekt_kg := none, hjuldrift := none, vekt_kg := none,
    seter := none, doerer := none, bagasjerom_volum_l := none,
    farge := none, fargebeskrivelse := none, interioerfarge := none,
    bilen_staar_i := none, neste_eu_kontroll := none,
    avgiftsklasse := none, registreringsnummer := none,
    chassisnummer := none, foerstegangsregistrert := none, eiere := none,
    garanti := none, salgsform := none, specs := [("k", toString n)] }

/-- A concrete pending identity row for id `"a"`. -/
def examplePendingRow : IdRow :=
  { ad_id := "a", source_url := "u", fetched_by := "c",
    first_seen := 0, last_seen := 0, last_scraped := none,
    scrape_status := Status.pending }

/-- C5: ingesting a second detail record for an id that already has one
replaces the stored detail row with exactly the second record's row —
every structured field and the whole overflow map come from the second
record, with nothing merged from the first. -/
theorem detail_full_replace (db : DB) (r : AdRecord) (d0 : DetailRow)
    (hid : (rowOf db.ad_ids r.ad_id).isSome = true)
    (hd : detailOf db.ad_details r.ad_id = some d0) :
    ∃ db1, save_ad_detail db r = Except.ok db1 ∧
      detailOf db1.ad_details r.ad_id = some (toDetailRow r) ∧
      (toDetailRow r).raw_spec_json = r.specs := by
  obtain ⟨r0, hr0⟩ := Option.isSome_iff_exists.mp hid
  have hany : db.ad_ids.any (fun x => x.ad_id = r.ad_id) = true :=
    any_of_rowOf_some hr0
  have hanyd : db.ad_details.any (fun x => x.ad_id = r.ad_id) = true :=
    any_of_detailOf_some hd
  have hd0id : d0.ad_id = r.ad_id := detailOf_mem_ad_id hd
  refine ⟨updateIdentityStep
    { db with ad_details := upsertDetail db.ad_details (toDetailRow r) } r,
    ?_, ?_, rfl⟩
  · unfold save_ad_detail saveDetailStep
    rw [if_pos hany]
    rfl
  · show detailOf (upsertDetail db.ad_details (toDetailRow r)) r.ad_id = _
    unfold upsertDetail
    rw [if_pos (by simpa using hanyd)]
    rw [detailOf_map_keyed _ _ (fun x => by
      by_cases hx : x.ad_id = (toDetailRow r).ad_id <;>
        simp [hx, detailConflictUpdate_ad_id])]
    rw [hd]
    have : (if d0.ad_id = (toDetailRow r).ad_id
        then detailConflictUpdate d0 (toDetailRow r) else d0)
        = toDetailRow r := by
      rw [if_pos (by simpa using hd0id)]
      exact detailConflictUpdate_eq (by simpa using hd0id)
    simp [this]

/-- Witness for C5: two successive ingests for the same id leave exactly
the second record's row. -/
theorem detail_full_replace_witness :
    ∃ db1, save_ad_detail
        { ad_ids := [examplePendingRow],
          ad_details := [toDetailRow (exampleRecord 1)] }
        (exampleRecord 2) = Except.ok db1 ∧
      detailOf db1.ad_details (exampleRecord 2).ad_id
        = some (toDetailRow (exampleRecord 2)) ∧
      (toDetailRow (exampleRecord 2)).raw_spec_json = (exampleRecord 2).specs :=
  detail_full_replace _ (exampleRecord 2) (toDetailRow (exampleRecord 1))
    (by decide) (by decide)

/-- C6: for an existing identity record, `save_ad_detail` sets
`last_scraped` to the detail's `fetched_at` and the status to `scraped`;
`mark_missing` sets the status to `missing` and `last_scraped` to the
current time, and the resulting row never satisfies the scrape-candidate
predicate. -/
theorem ingester_identity_transitions (db : DB) (r : AdRecord) (r0 : IdRow)
    (now : Nat) (h : rowOf db.ad_ids r.ad_id = some r0) :
    (∃ db1, save_ad_detail db r = Except.ok db1 ∧
        rowOf db1.ad_ids r.ad_id =
          some { r0 with last_scraped := some r.fetched_at,
                         scrape_status := Status.scraped }) ∧
    (rowOf (mark_missing now db r.ad_id).ad_ids r.ad_id =
        some { r0 with scrape_status := Status.missing,
                       last_scraped := some now } ∧
      ∀ t w, scrapeCandidatePred t w
          { r0 with scrape_status := Status.missing,
                    last_scraped := some now } = false) := by
  have hany : db.ad_ids.any (fun x => x.ad_id = r.ad_id) = true :=
    any_of_rowOf_some h
  have hr0id : r0.ad_id = r.ad_id := rowOf_mem_ad_id h
  refine ⟨⟨updateIdentityStep
      { db with ad_details := upsertDetail db.ad_details (toDetailRow r) } r,
      ?_, ?_⟩, ?_, ?_⟩
  · unfold save_ad_detail saveDetailStep
    rw [if_pos hany]
    rfl
  · show rowOf (db.ad_ids.map _) r.ad_id = _
    rw [rowOf_map_keyed _ _ (fun x => by
      by_cases hx : x.ad_id = r.ad_id <;> simp [hx])]
    rw [h]
    simp [hr0id]
  · show rowOf (db.ad_ids.map _) r.ad_id = _
    rw [rowOf_map_keyed _ _ (fun x => by
      by_cases hx : x.ad_id = r.ad_id <;> simp [hx])]
    rw [h]
    simp [hr0id]
  · intro t w
    simp [scrapeCandidatePred]

/-- Witness for C6 at a concrete store. -/
theorem ingester_identity_transitions_witness :
    (∃ db1, save_ad_detail
        { ad_ids := [examplePendingRow], ad_details := [] }
        (exampleRecord 7) = Except.ok db1 ∧
      rowOf db1.ad_ids (exampleRecord 7).ad_id =
        some { examplePendingRow with
                 last_scraped := some (exampleRecord 7).fetched_at,
                 scrape_status := Status.scraped }) ∧
    (rowOf (mark_missing 9 { ad_ids := [examplePendingRow], ad_details := [] }
        (exampleRecord 7).ad_id).ad_ids (exampleRecord 7).ad_id =
      some { examplePendingRow with scrape_status := Status.missing,
                                    last_scraped := some 9 } ∧
      ∀ t w, scrapeCandidatePred t w
        { examplePendingRow with scrape_status := Status.missing,
                                 last_scraped := some 9 } = false) :=
  ingester_identity_transitions _ (exampleRecord 7) examplePendingRow 9
    (by decide)

/-- C7 counterexample: `mark_missing` for an id with no identity record
completes without raising and leaves the store unchanged, contradicting the
claim that both ingest operations fail loudly on an unknown id. -/
theorem mark_missing_unknown_silent :
    mark_missing 10 { ad_ids := [], ad_details := [] } "123"
      = { ad_ids := [], ad_details := [] } := rfl

/-- C7 amended: on an unknown id, `save_ad_detail` does fail loudly (the
detail INSERT violates the foreign key enforced by `PRAGMA foreign_keys =
ON`) and commits nothing, but `mark_missing` is a silent no-op: its UPDATE
matches zero rows, so it completes without error and leaves the store
unchanged. -/
theorem unknown_id_contract (db : DB) (r : AdRecord) (now : Nat)
    (h : rowOf db.ad_ids r.ad_id = none) :
    save_ad_detail db r = Except.error "FOREIGN KEY constraint failed" ∧
    mark_missing now db r.ad_id = db := by
  have hnone : ∀ x ∈ db.ad_ids, ¬(x.ad_id = r.ad_id) := by
    intro x hx hpx
    have := List.find?_eq_none.mp h x hx
    simp [hpx] at this
  constructor
  · have hany : ¬(db.ad_ids.any (fun x => x.ad_id = r.ad_id) = true) := by
      simp only [List.any_eq_true, not_exists]
      intro x hcon
      rcases hcon with ⟨hx, hpx⟩
      exact hnone x hx (by simpa using hpx)
    unfold save_ad_detail saveDetailStep
    rw [if_neg hany]
    rfl
  · unfold mark_missing
    have : db.ad_ids.map (fun idr =>
        if idr.ad_id = r.ad_id then
          { idr with scrape_status := Status.missing,
                     last_scraped := some now }
        else idr) = db.ad_ids := by
      rw [List.map_congr_left (g := id) (fun x hx => by
        simp [hnone x hx]), List.map_id]
    rw [this]

/-- Witness for C7's amended claim at a concrete store. -/
theorem unknown_id_contract_witness :
    save_ad_detail { ad_ids := [], ad_details := [] } (exampleRecord 3)
      = Except.error "FOREIGN KEY constraint failed" ∧
    mark_missing 4 { ad_ids := [], ad_details := [] }
      (exampleRecord 3).ad_id = { ad_ids := [], ad_details := [] } :=
  unknown_id_contract _ (exampleRecord 3) 4 (by decide)

/-- C8: a session commits the body's writes exactly when the body
completes; any error inside the body leaves the persisted state as it was
at entry.  In particular a failure injected between the detail upsert and
the identity update of `save_ad_detail` leaves neither write observable. -/
theorem session_transactional :
    (∀ (db : DB) (body : DB → Except String DB) (db1 : DB),
        body db = Except.ok db1 → runSession db body = (db1, none)) ∧
    (∀ (db : DB) (body : DB → Except String DB) (e : String),
        body db = Except.error e → runSession db body = (db, some e)) ∧
    (∀ (db : DB) (r : AdRecord) (e : String),
        (runSession db
          (fun d => (saveDetailStep d r).bind fun _ => Except.error e)).1
        = db) := by
  refine ⟨?_, ?_, ?_⟩
  · intro db body db1 h
    unfold runSession
    rw [h]
  · intro db body e h
    unfold runSession
    rw [h]
  · intro db r e
    unfold runSession
    cases h : saveDetailStep db r <;> simp [h, Except.bind]

/-- Witness for C8: a failing body persists nothing. -/
theorem session_transactional_witness :
    runSession { ad_ids := [examplePendingRow], ad_details := [] }
        (fun _ => Except.error "boom")
      = ({ ad_ids := [examplePendingRow], ad_details := [] }, some "boom") :=
  session_transactional.2.1 _ _ "boom" rfl

/-! ### Scrape Scheduler -/

lemma scrapeCandidatePred_spec {now : Nat} {sw : Option Nat} {r : IdRow}
    (h : scrapeCandidatePred now sw r = true) :
    (r.scrape_status = Status.pending ∨ r.scrape_status = Status.scraped) ∧
    (sw = none → r.last_scraped = none) ∧
    (∀ w, sw = some w → r.last_scraped = none ∨
        ∃ t, r.last_scraped = some t ∧ t ≤ now - w) := by
  unfold scrapeCandidatePred at h
  cases sw with
  | none =>
    simp only [Bool.and_eq_true, Bool.or_eq_true, decide_eq_true_eq] at h
    exact ⟨h.1, fun _ => h.2, fun w hw => by cases hw⟩
  | some w =>
    simp only [Bool.and_eq_true, Bool.or_eq_true, decide_eq_true_eq] at h
    refine ⟨h.1, ?_, ?_⟩
    · intro hn
      cases hn
    intro w' hw'
    cases hw'
    cases hls : r.last_scraped with
    | none => exact Or.inl rfl
    | some t =>
      rcases h.2 with hl | hm
      · rw [hls] at hl
        cases hl
      · rw [hls] at hm
        simp only [decide_eq_true_eq] at hm
        exact Or.inr ⟨t, rfl, hm⟩

/-- C2: for every call — either ordering mode, with `ORDER BY RANDOM()`
modelled by an arbitrary permutation — the scheduler returns ids only of
rows whose status is `pending` or `scraped` and whose `last_scraped`
satisfies the staleness predicate (NULL-only without a window; NULL or at
most `now - window` with one); under chronological ordering the drawn rows
are ascending in `COALESCE(last_scraped, epoch)`; and the result holds
`limit` entries, or all qualifying ones when fewer exist. -/
theorem fetch_ids_selection (db : DB) (limit : Nat)
    (staleWindow : Option Nat) (now : Nat) (random_order : Bool)
    (shuffle : List IdRow → List IdRow)
    (hshuffle : ∀ l, List.Perm (shuffle l) l) :
    ∃ rs : List IdRow,
      rs.map IdRow.ad_id =
        fetch_ids_for_scraping db limit staleWindow now random_order
          shuffle ∧
      (∀ r ∈ rs, r ∈ db.ad_ids ∧
        (r.scrape_status = Status.pending ∨
          r.scrape_status = Status.scraped) ∧
        (staleWindow = none → r.last_scraped = none) ∧
        (∀ w, staleWindow = some w → r.last_scraped = none ∨
            ∃ t, r.last_scraped = some t ∧ t ≤ now - w)) ∧
      (random_order = false →
        rs.Pairwise (fun a b => scrapeSortKey a ≤ scrapeSortKey b)) ∧
      (fetch_ids_for_scraping db limit staleWindow now random_order
          shuffle).length =
        min limit
          (db.ad_ids.filter (scrapeCandidatePred now staleWindow)).length := by
  cases random_order with
  | false =>
    refine ⟨((db.ad_ids.filter (scrapeCandidatePred now staleWindow)).mergeSort
        (fun a b => scrapeSortKey a ≤ scrapeSortKey b)).take limit,
      by simp [fetch_ids_for_scraping], ?_, ?_, ?_⟩
    · intro r hr
      have hr1 : r ∈ (db.ad_ids.filter
          (scrapeCandidatePred now staleWindow)).mergeSort
          (fun a b => scrapeSortKey a ≤ scrapeSortKey b) :=
        List.mem_of_mem_take hr
      rw [List.mem_mergeSort] at hr1
      rw [List.mem_filter] at hr1
      exact ⟨hr1.1, scrapeCandidatePred_spec hr1.2⟩
    · intro _
      have hs : ((db.ad_ids.filter
          (scrapeCandidatePred now staleWindow)).mergeSort
          (fun a b => scrapeSortKey a ≤ scrapeSortKey b)).Pairwise
          (fun a b => (scrapeSortKey a ≤ scrapeSortKey b : Bool)) :=
        List.sorted_mergeSort
          (by intro a b c hab hbc
              simp only [decide_eq_true_eq] at *
              omega)
          (by intro a b
              simp only [Bool.or_eq_true, decide_eq_true_eq]
              omega)
          _
      exact ((hs.sublist (List.take_sublist _ _)).imp (by
        intro a b hab
        simpa using hab))
    · unfold fetch_ids_for_scraping
      simp [List.length_take]
  | true =>
    refine ⟨(shuffle (db.ad_ids.filter
        (scrapeCandidatePred now staleWindow))).take limit,
      by simp [fetch_ids_for_scraping], ?_, ?_, ?_⟩
    · intro r hr
      have hr1 : r ∈ shuffle (db.ad_ids.filter
          (scrapeCandidatePred now staleWindow)) :=
        List.mem_of_mem_take hr
      have hr2 : r ∈ db.ad_ids.filter (scrapeCandidatePred now staleWindow) :=
        (hshuffle _).mem_iff.mp hr1
      rw [List.mem_filter] at hr2
      exact ⟨hr2.1, scrapeCandidatePred_spec hr2.2⟩
    · intro h
      simp at h
    · unfold fetch_ids_for_scraping
      simp [List.length_take, (hshuffle _).length_eq]

/-- A concrete store holding one pending and one scraped row. -/
def exampleDb : DB :=
  { ad_ids := [examplePendingRow, exampleScrapedRow], ad_details := [] }

/-- Witness for C2 at a concrete store holding one row of each status,
with the identity reordering standing in for the random source. -/
theorem fetch_ids_selection_witness :
    ∃ rs : List IdRow,
      rs.map IdRow.ad_id = fetch_ids_for_scraping exampleDb 2 (some 1) 100
        false (fun l => l) ∧
      (∀ r ∈ rs, r ∈ exampleDb.ad_ids ∧
        (r.scrape_status = Status.pending ∨
          r.scrape_status = Status.scraped) ∧
        ((some 1 : Option Nat) = none → r.last_scraped = none) ∧
        (∀ w, (some 1 : Option Nat) = some w → r.last_scraped = none ∨
            ∃ t, r.last_scraped = some t ∧ t ≤ 100 - w)) ∧
      (false = false →
        rs.Pairwise (fun a b => scrapeSortKey a ≤ scrapeSortKey b)) ∧
      (fetch_ids_for_scraping exampleDb 2 (some 1) 100 false
          (fun l => l)).length =
        min 2 (exampleDb.ad_ids.filter
          (scrapeCandidatePred 100 (some 1))).length :=
  fetch_ids_selection exampleDb 2 (some 1) 100 false (fun l => l)
    (fun l => List.Perm.refl l)

/-! ### Page Crawler proofs -/

lemma appendNew_nil (acc : List String) : appendNew acc [] = acc := rfl

lemma appendNew_append (acc a b : List String) :
    appendNew acc (a ++ b) = appendNew (appendNew acc a) b := by
  unfold appendNew
  rw [List.foldl_append]

lemma appendNew_nodup (acc l : List String) (h : acc.Nodup) :
    (appendNew acc l).Nodup := by
  induction l generalizing acc with
  | nil => exact h
  | cons x xs ih =>
    show (appendNew (if acc.contains x then acc else acc ++ [x]) xs).Nodup
    by_cases hc : acc.contains x
    · rw [if_pos hc]
      exact ih acc h
    · rw [if_neg hc]
      refine ih _ ?_
      have hx : x ∉ acc := by simpa using hc
      simp [List.nodup_append, h, hx]

lemma extract_foldl_eq (cands acc : List String) :
    cands.foldl (fun ids c =>
        let c := pyStrip c
        if c ≠ "" && !(ids.contains c) then ids ++ [c] else ids) acc
      = appendNew acc ((cands.map pyStrip).filter (fun c => c ≠ "")) := by
  induction cands generalizing acc with
  | nil => rfl
  | cons x xs ih =>
    simp only [List.foldl_cons, List.map_cons, List.filter_cons]
    by_cases hx : pyStrip x = ""
    · simp only [hx]
      rw [ih]
      simp
    · have hxd : (decide ¬(pyStrip x = "")) = true := by simp [hx]
      by_cases hc : List.contains acc (pyStrip x)
      · simp only [hx, hxd]
        rw [ih]
        simp [hx, hc, appendNew]
      · simp only [hx, hxd]
        rw [ih]
        simp [hx, hc, appendNew]

lemma extract_ids_eq_firstSeen (cands : List String) :
    extract_ids_from_page cands
      = firstSeen ((cands.map pyStrip).filter (fun c => c ≠ "")) := by
  unfold extract_ids_from_page firstSeen
  exact extract_foldl_eq cands []

lemma firstSeen_nodup (l : List String) : (firstSeen l).Nodup :=
  appendNew_nodup [] l List.nodup_nil

lemma collectGo_cons_some (limit : Nat) (elems : List String)
    (rest : List (Option (List String))) (collected : List String) :
    collectGo limit (some elems :: rest) collected =
      if (extract_ids_from_page elems).isEmpty then collected
      else if limit ≤
          (appendNew collected (extract_ids_from_page elems)).length then
        (appendNew collected (extract_ids_from_page elems)).take limit
      else
        collectGo limit rest
          (appendNew collected (extract_ids_from_page elems)) := rfl

lemma collectGo_spec (limit : Nat) (ps : List (Option (List String)))
    (collected : List String) (h : collected.length < limit) :
    ∃ consumed : List (List String),
      consumed.map some <+: ps ∧
      collectGo limit ps collected =
        (appendNew collected
          ((consumed.map extract_ids_from_page).flatten)).take limit := by
  induction ps generalizing collected with
  | nil =>
    exact ⟨[], List.nil_prefix, by
      simp [collectGo, appendNew_nil,
        List.take_of_length_le (Nat.le_of_lt h)]⟩
  | cons p rest ih =>
    cases p with
    | none =>
      exact ⟨[], List.nil_prefix, by
        simp [collectGo, appendNew_nil,
          List.take_of_length_le (Nat.le_of_lt h)]⟩
    | some elems =>
      by_cases hempty : (extract_ids_from_page elems).isEmpty = true
      · refine ⟨[], List.nil_prefix, ?_⟩
        have hnil : extract_ids_from_page elems = [] :=
          List.isEmpty_iff.mp hempty
        simp [collectGo, hnil, appendNew_nil,
          List.take_of_length_le (Nat.le_of_lt h)]
      · by_cases hl :
            limit ≤ (appendNew collected (extract_ids_from_page elems)).length
        · refine ⟨[elems], ?_, ?_⟩
          · simp
          · rw [collectGo_cons_some, if_neg (by simpa using hempty),
              if_pos hl]
            simp
        · have hlt :
              (appendNew collected (extract_ids_from_page elems)).length
                < limit := Nat.lt_of_not_le hl
          obtain ⟨cs, hpre, heq⟩ := ih _ hlt
          refine ⟨elems :: cs, ?_, ?_⟩
          · exact List.cons_prefix_cons.mpr ⟨rfl, hpre⟩
          · rw [collectGo_cons_some, if_neg (by simpa using hempty),
              if_neg hl, heq]
            simp only [List.map_cons, List.flatten_cons]
            rw [appendNew_append]

lemma collect_ad_ids_zero (pages : List (Option (List String))) :
    collect_ad_ids pages 0 = [] := by
  unfold collect_ad_ids
  cases pages with
  | nil => rfl
  | cons p rest =>
    cases p with
    | none => rfl
    | some elems =>
      simp only [collectGo]
      split
      · rfl
      · rw [if_pos (Nat.zero_le _)]
        simp

/-- C3: the crawl result never repeats an identifier, and equals the
first-seen-order deduplication of the identifiers extracted from the pages
it consumed (a prefix of the crawl), truncated to `limit` — so an id on
two pages is kept once, at its first occurrence, and output order is
first-appearance order. -/
theorem collect_dedup_first_seen (pages : List (Option (List String)))
    (limit : Nat) :
    (collect_ad_ids pages limit).Nodup ∧
    ∃ consumed : List (List String),
      consumed.map some <+: pages ∧
      collect_ad_ids pages limit =
        (firstSeen ((consumed.map extract_ids_from_page).flatten)).take
          limit := by
  by_cases h : 0 < limit
  · obtain ⟨cs, hpre, heq⟩ := collectGo_spec limit pages [] (by simpa using h)
    have heq' : collect_ad_ids pages limit =
        (firstSeen ((cs.map extract_ids_from_page).flatten)).take limit := heq
    refine ⟨?_, cs, hpre, heq'⟩
    rw [heq']
    exact ((List.take_sublist _ _).nodup (firstSeen_nodup _))
  · have hl0 : limit = 0 := Nat.eq_zero_of_not_pos h
    subst hl0
    rw [collect_ad_ids_zero]
    exact ⟨List.nodup_nil, [], List.nil_prefix, by simp⟩

/-- Witness for C3: overlapping pages 1 and 2 produce each id once, in
first-seen order. -/
theorem collect_dedup_first_seen_witness :
    (collect_ad_ids [some ["a", "b"], some ["b", "c"]] 10).Nodup ∧
    ∃ consumed : List (List String),
      consumed.map some <+: [some ["a", "b"], some ["b", "c"]] ∧
      collect_ad_ids [some ["a", "b"], some ["b", "c"]] 10 =
        (firstSeen ((consumed.map extract_ids_from_page).flatten)).take 10 :=
  collect_dedup_first_seen [some ["a", "b"], some ["b", "c"]] 10

/-- C4: the crawl result never exceeds `limit` entries, and reaching the
limit mid-page truncates to exactly `limit` and stops: with `limit = 5`
and pages of 3 fresh ids each, the result is exactly the first 5 ids and
the third page is never consulted. -/
theorem collect_limit_truncation (pages : List (Option (List String)))
    (limit : Nat) (h : 1 ≤ limit) :
    (collect_ad_ids pages limit).length ≤ limit ∧
    collect_ad_ids
        [some ["a", "b", "c"], some ["d", "e", "f"], some ["g", "h", "i"]] 5
      = ["a", "b", "c", "d", "e"] := by
  constructor
  · obtain ⟨cs, _, heq⟩ := collectGo_spec limit pages []
      (by simp only [List.length_nil]; omega)
    have heq' : collect_ad_ids pages limit =
        (appendNew [] ((cs.map extract_ids_from_page).flatten)).take
          limit := heq
    rw [heq']
    exact List.length_take_le _ _
  · rfl

/-- Witness for C4 at a concrete limit and page sequence. -/
theorem collect_limit_truncation_witness :
    (collect_ad_ids [some ["x", "y"]] 5).length ≤ 5 ∧
    collect_ad_ids
        [some ["a", "b", "c"], some ["d", "e", "f"], some ["g", "h", "i"]] 5
      = ["a", "b", "c", "d", "e"] :=
  collect_limit_truncation [some ["x", "y"]] 5 (by decide)

/-- C10: per-page extraction itself deduplicates — each (trimmed,
non-empty) candidate appears exactly once, at its first in-page
occurrence — and the cross-page append step deduplicates again,
preserving distinctness of the running result. -/
theorem extract_in_page_dedup (cands : List String) :
    (extract_ids_from_page cands).Nodup ∧
    extract_ids_from_page cands
      = firstSeen ((cands.map pyStrip).filter (fun c => c ≠ "")) ∧
    (∀ collected pageIds : List String, collected.Nodup →
        (appendNew collected pageIds).Nodup) ∧
    extract_ids_from_page [" x ", "y", "x"] = ["x", "y"] := by
  refine ⟨?_, extract_ids_eq_firstSeen cands, ?_, ?_⟩
  · rw [extract_ids_eq_firstSeen]
    exact firstSeen_nodup _
  · intro collected pageIds hc
    exact appendNew_nodup collected pageIds hc
  · rfl

/-- Witness for C10 at a concrete page containing a duplicate. -/
theorem extract_in_page_dedup_witness :
    (extract_ids_from_page ["p", "q", "p"]).Nodup ∧
    extract_ids_from_page ["p", "q", "p"]
      = firstSeen ((["p", "q", "p"].map pyStrip).filter
          (fun c => c ≠ "")) ∧
    (∀ collected pageIds : List String, collected.Nodup →
        (appendNew collected pageIds).Nodup) ∧
    extract_ids_from_page [" x ", "y", "x"] = ["x", "y"] :=
  extract_in_page_dedup ["p", "q", "p"]

end FinnBruktbil
